import Mathlib

/-!
Verification of the file-based IPC calculator (client.c / server.c).

C strings are modelled as lists of byte values (`List Nat`); C `int`
arithmetic is modelled over `Int` (overflow is out of scope); fallible
operations return `Option`; file-system and fork failures are supplied
through explicit environment records.
-/

namespace IPC

/-- Predicate for the whitespace bytes `isspace` accepts, which C `atoi`
skips at the start of its input. -/
def isSpaceByte (c : Nat) : Bool :=
  c = 32 || c = 9 || c = 10 || c = 11 || c = 12 || c = 13

/-- Predicate for ASCII digit bytes. -/
def isDigitByte (c : Nat) : Bool := 48 ≤ c && c ≤ 57

/-- Digit-accumulation loop of C `atoi`: consume leading digit bytes,
accumulating the value, and stop at the first non-digit byte. -/
def atoiLoop : List Nat → Nat → Nat
  | [], acc => acc
  | c :: cs, acc => if isDigitByte c then atoiLoop cs (acc * 10 + (c - 48)) else acc

/-- Behaviour of C `atoi` after leading whitespace has been skipped: an
optional sign byte followed by the digit loop. -/
def atoiSigned : List Nat → Int
  | [] => 0
  | c :: cs =>
    if c = 45 then -(atoiLoop cs 0 : Int)
    else if c = 43 then (atoiLoop cs 0 : Int)
    else (atoiLoop (c :: cs) 0 : Int)

/-- Model of C `atoi` on a byte string: skip leading whitespace, then parse
an optional sign and a run of digits (0 when there are no digits). -/
def atoi (s : List Nat) : Int := atoiSigned (s.dropWhile isSpaceByte)

/-- Digit-extraction loop shared by `intToStr` in server.c and client.c,
with explicit fuel so that it is structurally recursive: digits of `n` in
reverse order, one `(n % 10) + 48` byte per iteration of
`while (num > 0)`. -/
def digitsRevAux : Nat → Nat → List Nat
  | 0, _ => []
  | fuel + 1, n => if n = 0 then [] else (n % 10 + 48) :: digitsRevAux fuel (n / 10)

/-- Digits of `n` in reverse order; since `n / 10 < n` for `n > 0`, the
loop runs at most `n` times, so `n` itself is enough fuel. -/
def digitsRev (n : Nat) : List Nat := digitsRevAux n n

/-- Model of `intToStr` (server.c:90, client.c:142): the byte `"0"` for
zero, the extracted digits reversed for positive input; for negative input
the loop body never runs, so the result is the empty string. -/
def intToStr (num : Int) : List Nat :=
  if num = 0 then [48] else (digitsRev num.toNat).reverse

/-- Canonical decimal byte string of a natural number. -/
def natRepr (n : Nat) : List Nat :=
  if n = 0 then [48] else (digitsRev n).reverse

/-- Canonical decimal byte string of an integer: an optional minus byte
followed by the digits. This is the argv text a client passes for an
integer operand. -/
def intArg (n : Int) : List Nat :=
  if n < 0 then 45 :: natRepr n.natAbs else natRepr n.toNat

/-- Accumulating pass of `strtok(buffer, " ")` as used by `parseInput`:
split the byte string on spaces, skipping empty fields; `acc` holds the
bytes of the token currently being read, in reverse. -/
def tokenizeAux : List Nat → List Nat → List (List Nat)
  | [], acc => if acc = [] then [] else [acc.reverse]
  | c :: cs, acc =>
    if c = 32 then
      if acc = [] then tokenizeAux cs [] else acc.reverse :: tokenizeAux cs []
    else tokenizeAux cs (c :: acc)

/-- Sequence of tokens that repeated `strtok` calls with delimiter `" "`
yield on `s`. -/
def tokenize (s : List Nat) : List (List Nat) := tokenizeAux s []

/-- Model of `parseInput` (server.c:54): four `strtok` calls, each result
passed to `atoi`. When fewer than four tokens exist, `strtok` returns
`NULL` and `atoi(NULL)` dereferences a null pointer; that crash of the
server process is modelled as `none`. -/
def parseInput (buffer : List Nat) : Option (Int × Int × Int × Int) :=
  match tokenize buffer with
  | t0 :: t1 :: t2 :: t3 :: _ => some (atoi t0, atoi t1, atoi t2, atoi t3)
  | _ => none

/-- Arithmetic switch of `performCalculation` (server.c:140); `none` marks
the `ERROR_FROM_EX2` branches (division by zero, unknown operation code).
C integer division truncates toward zero, i.e. `Int.tdiv`. -/
def computeResult (num1 operation num2 : Int) : Option Int :=
  if operation = 1 then some (num1 + num2)
  else if operation = 2 then some (num1 - num2)
  else if operation = 3 then some (num1 * num2)
  else if operation = 4 then
    if num2 ≠ 0 then some (num1.tdiv num2) else none
  else none

/-- Byte string of the literal `"_toClient.txt"`. -/
def toClientSuffix : List Nat :=
  [95, 116, 111, 67, 108, 105, 101, 110, 116, 46, 116, 120, 116]

/-- Response file name built by `performCalculation` (server.c:163):
`intToStr(clientPID)` followed by `"_toClient.txt"`. -/
def outboxName (clientPID : Int) : List Nat := intToStr clientPID ++ toClientSuffix

/-- Failure switches for the two file operations `performCalculation`
performs. -/
structure WorkerEnv where
  openFails : Bool
  writeFails : Bool
deriving DecidableEq

/-- Observable outcome of the calculation worker: either a response file
with its content plus a SIGUSR1 notification to the requester, or process
termination with no outbox file and no notification. -/
inductive WorkerOutcome
  | delivered (outbox : List Nat) (content : List Nat) (notified : Int)
  | silentExit
deriving DecidableEq

/-- Model of `performCalculation` (server.c:136): compute the result, then
create the response file, write the serialized result and signal the
client; every failure branch prints the sentinel and exits without
creating an outbox or notifying. -/
def performCalculation (env : WorkerEnv) (clientPID num1 operation num2 : Int) :
    WorkerOutcome :=
  match computeResult num1 operation num2 with
  | none => .silentExit
  | some result =>
    if env.openFails then .silentExit
    else if env.writeFails then .silentExit
    else .delivered (outboxName clientPID) (intToStr result) clientPID

/-- Request line the client builds and writes (client.c:221): its own pid
via `intToStr`, then the three argv strings, space separated. -/
def requestLine (myPID : Int) (arg2 arg3 arg4 : List Nat) : List Nat :=
  intToStr myPID ++ 32 :: (arg2 ++ 32 :: (arg3 ++ 32 :: arg4))

/-- Request line for an integer-valued record, the argv strings being the
canonical decimal representations of the integers. -/
def requestLineOfInts (myPID num1 operation num2 : Int) : List Nat :=
  requestLine myPID (intArg num1) (intArg operation) (intArg num2)

/-- Full protocol round trip on the happy I/O path: the client serializes
the request, the server parses it, the worker computes and writes the
response, and the client reads back the response file content. `none`
when the worker never delivers a response. -/
def roundTripContent (myPID num1 operation num2 : Int) : Option (List Nat) :=
  match parseInput (requestLineOfInts myPID num1 operation num2) with
  | none => none
  | some (pid, a, op, b) =>
    match performCalculation ⟨false, false⟩ pid a op b with
    | .delivered _ content _ => some content
    | .silentExit => none

/-- Failure switches for the system calls `signalHandler` performs, in
program order. -/
structure DispatchEnv where
  openFails : Bool
  fstatFails : Bool
  mallocFails : Bool
  readFails : Bool
  removeFails : Bool
  forkFails : Bool
deriving DecidableEq

/-- Events of one dispatch cycle of the server, in the order
`signalHandler` performs them. -/
inductive SEv
  | evOpen
  | evFstat
  | evMalloc
  | evRead
  | evCloseFd
  | evRemoveInbox
  | evParse
  | evSetFlag
  | evFork
  | evCompute
deriving DecidableEq

/-- Result of one SIGUSR1 dispatch cycle: the ordered events performed,
the value of `isRequestReceived` afterwards, and the exit code when the
cycle terminates the server process (`none` = the server keeps running). -/
structure DispatchResult where
  trace : List SEv
  flagAfter : Bool
  exitCode : Option Nat
deriving DecidableEq

/-- Model of `signalHandler` (server.c:217) on SIGUSR1: open the inbox,
`fstat` it, allocate, read, close, delete the inbox, parse, set
`isRequestReceived`, fork; the child runs `performCalculation`. Each
failing call prints the sentinel and exits — with code 0 everywhere
except the fork failure branch (server.c:275), which exits with code 1. -/
def signalHandlerRun (env : DispatchEnv) (flag : Bool) : DispatchResult :=
  if env.openFails then ⟨[.evOpen], flag, some 0⟩
  else if env.fstatFails then ⟨[.evOpen, .evFstat, .evCloseFd], flag, some 0⟩
  else if env.mallocFails then ⟨[.evOpen, .evFstat, .evMalloc, .evCloseFd], flag, some 0⟩
  else if env.readFails then
    ⟨[.evOpen, .evFstat, .evMalloc, .evRead, .evCloseFd], flag, some 0⟩
  else if env.removeFails then
    ⟨[.evOpen, .evFstat, .evMalloc, .evRead, .evCloseFd, .evRemoveInbox], flag, some 0⟩
  else if env.forkFails then
    ⟨[.evOpen, .evFstat, .evMalloc, .evRead, .evCloseFd, .evRemoveInbox, .evParse,
      .evSetFlag, .evFork], true, some 1⟩
  else
    ⟨[.evOpen, .evFstat, .evMalloc, .evRead, .evCloseFd, .evRemoveInbox, .evParse,
      .evSetFlag, .evFork, .evCompute], true, none⟩

/-- Model of `timerHandler` (server.c:301): on SIGALRM the server exits
with code 0 when `isRequestReceived` is still unset, and otherwise just
returns to the event loop (`none`). -/
def timerHandler (isRequestReceived : Bool) : Option Nat :=
  if !isRequestReceived then some 0 else none

/-- Outcome of one iteration of the client's inbox-creation attempt: the
exclusive-create `open` may fail, the subsequent `write` may fail, or
both succeed. -/
inductive AttemptOutcome
  | openFail
  | writeFail
  | success
deriving DecidableEq

/-- State observable after the client's retry loop: the final value of the
`retries` variable, the durations slept (in 10 ms units, one sleep at the
top of each iteration), and whether the request was written. -/
structure RetryResult where
  retries : Nat
  sleeps : List Nat
  succeeded : Bool
deriving DecidableEq

/-- Model of the retry loop of client `main` (client.c:217): while
`retries < 10`, sleep `(randomDelay + 1)` units, rebuild the request line,
attempt exclusive creation; a failed `open` and a failed `write` both
increment `retries` and continue, and a successful write breaks out. -/
def retryLoop (env : Nat → AttemptOutcome) (randomDelay : Nat) (retries : Nat) :
    RetryResult :=
  if h : retries < 10 then
    match env retries with
    | .success => ⟨retries, [randomDelay + 1], true⟩
    | .openFail =>
      let r := retryLoop env randomDelay (retries + 1)
      ⟨r.retries, (randomDelay + 1) :: r.sleeps, r.succeeded⟩
    | .writeFail =>
      let r := retryLoop env randomDelay (retries + 1)
      ⟨r.retries, (randomDelay + 1) :: r.sleeps, r.succeeded⟩
  else ⟨retries, [], false⟩
termination_by 10 - retries
decreasing_by all_goals omega

/-- Check after the loop (client.c:255): when `retries == MAX_RETRIES` the
client prints the sentinel and exits with -1 before ever signalling the
server. -/
def clientReportsFailure (env : Nat → AttemptOutcome) (randomDelay : Nat) : Bool :=
  (retryLoop env randomDelay 0).retries == 10

/-! Helper lemmas about the digit loop and `atoi`. -/

lemma digitsRevAux_zero (fuel : Nat) : digitsRevAux fuel 0 = [] := by
  cases fuel <;> rfl

lemma digitsRevAux_congr :
    ∀ f g n : Nat, n ≤ f → n ≤ g → digitsRevAux f n = digitsRevAux g n := by
  intro f
  induction f with
  | zero =>
    intro g n hf _
    have hn : n = 0 := Nat.le_zero.mp hf
    subst hn
    rw [digitsRevAux_zero, digitsRevAux_zero]
  | succ f ih =>
    intro g n hf hg
    by_cases hn : n = 0
    · subst hn
      rw [digitsRevAux_zero, digitsRevAux_zero]
    · obtain ⟨g', rfl⟩ : ∃ g', g = g' + 1 := ⟨g - 1, by omega⟩
      have hd : n / 10 < n := Nat.div_lt_self (Nat.pos_of_ne_zero hn) (by omega)
      simp only [digitsRevAux, if_neg hn]
      rw [ih g' (n / 10) (by omega) (by omega)]

lemma digitsRev_eq (n : Nat) :
    digitsRev n = if n = 0 then [] else (n % 10 + 48) :: digitsRev (n / 10) := by
  by_cases hn : n = 0
  · subst hn; rfl
  · obtain ⟨m, rfl⟩ : ∃ m, n = m + 1 := ⟨n - 1, by omega⟩
    have hd : (m + 1) / 10 < m + 1 := Nat.div_lt_self (by omega) (by omega)
    rw [if_neg hn]
    show digitsRevAux (m + 1) (m + 1) = _
    simp only [digitsRevAux, if_neg hn]
    rw [digitsRevAux_congr m ((m + 1) / 10) ((m + 1) / 10) (by omega) (by omega)]
    rfl

lemma digitsRev_digit {n c : Nat} (hc : c ∈ digitsRev n) : 48 ≤ c ∧ c ≤ 57 := by
  induction n using Nat.strong_induction_on with
  | _ n ih =>
    rw [digitsRev_eq] at hc
    by_cases hn : n = 0
    · rw [if_pos hn] at hc
      exact absurd hc (List.not_mem_nil c)
    · rw [if_neg hn] at hc
      rcases List.mem_cons.mp hc with h | h
      · have : n % 10 < 10 := Nat.mod_lt n (by omega)
        omega
      · exact ih (n / 10) (Nat.div_lt_self (Nat.pos_of_ne_zero hn) (by omega)) h

lemma digitsRev_ne_nil {n : Nat} (hn : n ≠ 0) : digitsRev n ≠ [] := by
  rw [digitsRev_eq, if_neg hn]
  simp

lemma atoiLoop_append (xs ys : List Nat) (acc : Nat)
    (h : ∀ c ∈ xs, isDigitByte c = true) :
    atoiLoop (xs ++ ys) acc = atoiLoop ys (atoiLoop xs acc) := by
  induction xs generalizing acc with
  | nil => rfl
  | cons c cs ih =>
    have hc : isDigitByte c = true := h c (List.mem_cons_self c cs)
    simp only [List.cons_append, atoiLoop, hc, if_true]
    exact ih _ (fun d hd => h d (List.mem_cons_of_mem _ hd))

lemma atoiLoop_digitsRev (n : Nat) :
    ∀ acc, atoiLoop ((digitsRev n).reverse) acc = acc * 10 ^ (digitsRev n).length + n := by
  induction n using Nat.strong_induction_on with
  | _ n ih =>
    intro acc
    by_cases hn : n = 0
    · subst hn
      simp [digitsRev, digitsRevAux, atoiLoop]
    · have hd : n / 10 < n := Nat.div_lt_self (Nat.pos_of_ne_zero hn) (by omega)
      rw [digitsRev_eq, if_neg hn]
      rw [List.reverse_cons]
      rw [atoiLoop_append _ _ _
        (fun d hd => by
          have := digitsRev_digit (List.mem_reverse.mp hd)
          simp only [isDigitByte, Bool.and_eq_true, decide_eq_true_eq]
          omega)]
      rw [ih (n / 10) hd acc]
      have hdig : isDigitByte (n % 10 + 48) = true := by
        have : n % 10 < 10 := Nat.mod_lt n (by omega)
        simp only [isDigitByte, Bool.and_eq_true, decide_eq_true_eq]
        omega
      simp only [atoiLoop, hdig, if_true]
      have hsub : n % 10 + 48 - 48 = n % 10 := by omega
      rw [hsub]
      have hlen : ((n % 10 + 48) :: digitsRev (n / 10)).length
          = (digitsRev (n / 10)).length + 1 := rfl
      rw [hlen, pow_succ]
      have hmul : (acc * 10 ^ (digitsRev (n / 10)).length + n / 10) * 10 + n % 10
          = acc * (10 ^ (digitsRev (n / 10)).length * 10) + (10 * (n / 10) + n % 10) := by
        ring
      rw [hmul, Nat.div_add_mod]

lemma natRepr_digit {n c : Nat} (hc : c ∈ natRepr n) : 48 ≤ c ∧ c ≤ 57 := by
  unfold natRepr at hc
  by_cases hn : n = 0
  · rw [if_pos hn] at hc
    have : c = 48 := by simpa using hc
    omega
  · rw [if_neg hn] at hc
    exact digitsRev_digit (List.mem_reverse.mp hc)

lemma natRepr_ne_nil (n : Nat) : natRepr n ≠ [] := by
  unfold natRepr
  by_cases hn : n = 0
  · rw [if_pos hn]; simp
  · rw [if_neg hn]
    simpa using digitsRev_ne_nil hn

lemma atoiLoop_natRepr (n : Nat) : atoiLoop (natRepr n) 0 = n := by
  unfold natRepr
  by_cases hn : n = 0
  · subst hn
    rfl
  · rw [if_neg hn, atoiLoop_digitsRev]
    simp

lemma atoi_natRepr (n : Nat) : atoi (natRepr n) = n := by
  obtain ⟨c, cs, hcons⟩ : ∃ c cs, natRepr n = c :: cs := by
    cases h : natRepr n with
    | nil => exact absurd h (natRepr_ne_nil n)
    | cons c cs => exact ⟨c, cs, rfl⟩
  have hd : 48 ≤ c ∧ c ≤ 57 := natRepr_digit (hcons ▸ List.mem_cons_self c cs)
  unfold atoi
  rw [hcons, List.dropWhile_cons,
    if_neg (by simp only [isSpaceByte, Bool.or_eq_true, decide_eq_true_eq]; omega)]
  simp only [atoiSigned, if_neg (by omega : ¬c = 45), if_neg (by omega : ¬c = 43)]
  rw [← hcons, atoiLoop_natRepr]

lemma atoi_intArg (k : Int) : atoi (intArg k) = k := by
  unfold intArg
  by_cases hk : k < 0
  · rw [if_pos hk]
    unfold atoi
    rw [List.dropWhile_cons, if_neg (by simp [isSpaceByte])]
    have h45 : atoiSigned (45 :: natRepr k.natAbs)
        = -(atoiLoop (natRepr k.natAbs) 0 : Int) := by
      simp [atoiSigned]
    rw [h45, atoiLoop_natRepr]
    omega
  · rw [if_neg hk, atoi_natRepr]
    omega

lemma intToStr_eq_natRepr {p : Int} (hp : 0 ≤ p) : intToStr p = natRepr p.toNat := by
  unfold intToStr natRepr
  by_cases h : p = 0
  · subst h; rfl
  · rw [if_neg h, if_neg (by omega : ¬p.toNat = 0)]

lemma intToStr_of_neg {p : Int} (hp : p < 0) : intToStr p = [] := by
  unfold intToStr
  rw [if_neg (by omega), show p.toNat = 0 by omega]
  rfl

/-! Helper lemmas about tokenization. -/

lemma tokenizeAux_word (w : List Nat) (hw : ∀ c ∈ w, c ≠ 32) :
    ∀ s acc, tokenizeAux (w ++ s) acc = tokenizeAux s (w.reverse ++ acc) := by
  induction w with
  | nil => intro s acc; simp
  | cons c cs ih =>
    intro s acc
    have hc : ¬c = 32 := hw c (List.mem_cons_self c cs)
    simp only [List.cons_append, tokenizeAux, if_neg hc, List.append_eq]
    rw [ih (fun d hd => hw d (List.mem_cons_of_mem _ hd)) s (c :: acc)]
    simp

lemma tokenize_cons_word (w s : List Nat) (hw : ∀ c ∈ w, c ≠ 32) (hne : w ≠ []) :
    tokenize (w ++ 32 :: s) = w :: tokenize s := by
  unfold tokenize
  rw [tokenizeAux_word w hw (32 :: s) []]
  have hrev : ¬w.reverse ++ [] = [] := by simpa using hne
  simp only [tokenizeAux, if_pos rfl, if_neg hrev]
  simp

lemma tokenize_word (w : List Nat) (hw : ∀ c ∈ w, c ≠ 32) (hne : w ≠ []) :
    tokenize w = [w] := by
  unfold tokenize
  have h := tokenizeAux_word w hw [] []
  rw [List.append_nil] at h
  rw [h]
  have hrev : ¬w.reverse ++ [] = [] := by simpa using hne
  simp only [tokenizeAux, if_neg hrev]
  simp

lemma natRepr_no_space {n c : Nat} (hc : c ∈ natRepr n) : c ≠ 32 := by
  have := natRepr_digit hc
  omega

lemma intArg_no_space {k : Int} {c : Nat} (hc : c ∈ intArg k) : c ≠ 32 := by
  unfold intArg at hc
  by_cases hk : k < 0
  · rw [if_pos hk] at hc
    rcases List.mem_cons.mp hc with h | h
    · omega
    · exact natRepr_no_space h
  · rw [if_neg hk] at hc
    exact natRepr_no_space hc

lemma intArg_ne_nil (k : Int) : intArg k ≠ [] := by
  unfold intArg
  by_cases hk : k < 0
  · rw [if_pos hk]; simp
  · rw [if_neg hk]; exact natRepr_ne_nil _

lemma tokenize_requestLine (myPID num1 op num2 : Int) (hpid : 0 ≤ myPID) :
    tokenize (requestLineOfInts myPID num1 op num2)
      = [natRepr myPID.toNat, intArg num1, intArg op, intArg num2] := by
  unfold requestLineOfInts requestLine
  rw [intToStr_eq_natRepr hpid]
  rw [tokenize_cons_word _ _ (fun c hc => natRepr_no_space hc) (natRepr_ne_nil _)]
  rw [tokenize_cons_word _ _ (fun c hc => intArg_no_space hc) (intArg_ne_nil _)]
  rw [tokenize_cons_word _ _ (fun c hc => intArg_no_space hc) (intArg_ne_nil _)]
  rw [tokenize_word _ (fun c hc => intArg_no_space hc) (intArg_ne_nil _)]

lemma parse_requestLine (myPID num1 op num2 : Int) (hpid : 0 ≤ myPID) :
    parseInput (requestLineOfInts myPID num1 op num2) = some (myPID, num1, op, num2) := by
  unfold parseInput
  rw [tokenize_requestLine myPID num1 op num2 hpid]
  simp only [atoi_natRepr, atoi_intArg, Int.toNat_of_nonneg hpid]

lemma computeResult_of_valid (num1 op num2 r : Int)
    (hop : op = 1 ∨ op = 2 ∨ op = 3 ∨ op = 4)
    (hdiv : op = 4 → num2 ≠ 0)
    (hr : r = if op = 1 then num1 + num2
      else if op = 2 then num1 - num2
      else if op = 3 then num1 * num2
      else num1.tdiv num2) :
    computeResult num1 op num2 = some r := by
  unfold computeResult
  rcases hop with rfl | rfl | rfl | rfl
  · norm_num at hr ⊢
    rw [hr]
  · norm_num at hr ⊢
    rw [hr]
  · norm_num at hr ⊢
    rw [hr]
  · norm_num at hr ⊢
    exact ⟨hdiv rfl, hr.symm⟩

/-! Helper lemmas about the client retry loop. -/

lemma retryLoop_stop (env : Nat → AttemptOutcome) (d retries : Nat) (h : ¬retries < 10) :
    retryLoop env d retries = ⟨retries, [], false⟩ := by
  unfold retryLoop
  rw [dif_neg h]

lemma retryLoop_success (env : Nat → AttemptOutcome) (d retries : Nat)
    (h : retries < 10) (hs : env retries = .success) :
    retryLoop env d retries = ⟨retries, [d + 1], true⟩ := by
  unfold retryLoop
  rw [dif_pos h, hs]

lemma retryLoop_fail (env : Nat → AttemptOutcome) (d retries : Nat)
    (h : retries < 10) (hs : env retries ≠ .success) :
    retryLoop env d retries =
      ⟨(retryLoop env d (retries + 1)).retries,
        (d + 1) :: (retryLoop env d (retries + 1)).sleeps,
        (retryLoop env d (retries + 1)).succeeded⟩ := by
  conv_lhs => rw [retryLoop]
  rw [dif_pos h]
  cases hcase : env retries with
  | success => exact absurd hcase hs
  | openFail => rfl
  | writeFail => rfl

lemma retryLoop_sleeps_const (env : Nat → AttemptOutcome) (d : Nat) :
    ∀ n retries, 10 - retries = n →
      ∀ t ∈ (retryLoop env d retries).sleeps, t = d + 1 := by
  intro n
  induction n with
  | zero =>
    intro retries h t ht
    rw [retryLoop_stop env d retries (by omega)] at ht
    exact absurd ht (List.not_mem_nil t)
  | succ n ih =>
    intro retries h t ht
    have hlt : retries < 10 := by omega
    by_cases hs : env retries = .success
    · rw [retryLoop_success env d retries hlt hs] at ht
      simpa using ht
    · rw [retryLoop_fail env d retries hlt hs] at ht
      rcases List.mem_cons.mp ht with h1 | h1
      · exact h1
      · exact ih (retries + 1) (by omega) t h1

lemma retryLoop_sleeps_len (env : Nat → AttemptOutcome) (d : Nat) :
    ∀ n retries, 10 - retries = n → (retryLoop env d retries).sleeps.length ≤ n := by
  intro n
  induction n with
  | zero =>
    intro retries h
    rw [retryLoop_stop env d retries (by omega)]
    simp
  | succ n ih =>
    intro retries h
    have hlt : retries < 10 := by omega
    by_cases hs : env retries = .success
    · rw [retryLoop_success env d retries hlt hs]
      simp
    · rw [retryLoop_fail env d retries hlt hs]
      have := ih (retries + 1) (by omega)
      simpa using this

lemma retryLoop_all_fail (env : Nat → AttemptOutcome) (d : Nat) :
    ∀ n retries, 10 - retries = n → retries ≤ 10 →
      (∀ k, retries ≤ k → k < 10 → env k ≠ .success) →
      (retryLoop env d retries).retries = 10 ∧
        (retryLoop env d retries).succeeded = false := by
  intro n
  induction n with
  | zero =>
    intro retries h hle _
    rw [retryLoop_stop env d retries (by omega)]
    refine ⟨?_, rfl⟩
    show retries = 10
    omega
  | succ n ih =>
    intro retries h hle hfail
    have hlt : retries < 10 := by omega
    have hs : env retries ≠ .success := hfail retries (Nat.le_refl retries) hlt
    rw [retryLoop_fail env d retries hlt hs]
    exact ih (retries + 1) (by omega) (by omega)
      (fun k hk1 hk2 => hfail k (by omega) hk2)

lemma retryLoop_first_success (env : Nat → AttemptOutcome) (d : Nat) :
    ∀ k retries, retries + k < 10 →
      (∀ j, j < k → env (retries + j) ≠ .success) →
      env (retries + k) = .success →
      (retryLoop env d retries).sleeps.length = k + 1 ∧
        (retryLoop env d retries).succeeded = true ∧
        (retryLoop env d retries).retries = retries + k := by
  intro k
  induction k with
  | zero =>
    intro retries h _ hs
    rw [retryLoop_success env d retries (by omega) (by simpa using hs)]
    simp
  | succ k ih =>
    intro retries h hj hs
    have h0 : env retries ≠ .success := by
      have := hj 0 (by omega)
      simpa using this
    rw [retryLoop_fail env d retries (by omega) h0]
    have hrec := ih (retries + 1) (by omega)
      (fun j hjk => by
        have hmem := hj (j + 1) (by omega)
        rw [show retries + (j + 1) = retries + 1 + j by omega] at hmem
        exact hmem)
      (by rw [show retries + 1 + k = retries + (k + 1) by omega]; exact hs)
    refine ⟨?_, hrec.2.1, ?_⟩
    · simp [hrec.1]
    · simp only [hrec.2.2]
      omega

/-! Claim theorems. -/

/-- C1 (counterexample): for the valid request (operand1 = 1, Sub,
operand2 = 2) from requester 1, the round trip delivers the empty string,
not the decimal representation of the correct result 1 - 2 = -1. -/
theorem roundTrip_negative_result_counterexample :
    roundTripContent 1 1 2 2 ≠ some (intArg (1 - 2)) ∧
      roundTripContent 1 1 2 2 = some [] := by decide

/-- C1 (amended): for every valid request (operationCode in {1,2,3,4},
operand2 nonzero when dividing) from a requester with nonnegative
identity, whenever the mathematically correct result (sum, difference,
product, or truncating quotient) is nonnegative, the full round trip
delivers exactly its decimal representation to the requesting client. -/
theorem roundTrip_delivers_correct_result (myPID num1 op num2 r : Int)
    (hpid : 0 ≤ myPID)
    (hop : op = 1 ∨ op = 2 ∨ op = 3 ∨ op = 4)
    (hdiv : op = 4 → num2 ≠ 0)
    (hr : r = if op = 1 then num1 + num2
      else if op = 2 then num1 - num2
      else if op = 3 then num1 * num2
      else num1.tdiv num2)
    (hnn : 0 ≤ r) :
    roundTripContent myPID num1 op num2 = some (intArg r) := by
  unfold roundTripContent
  rw [parse_requestLine myPID num1 op num2 hpid]
  show (match performCalculation ⟨false, false⟩ myPID num1 op num2 with
    | .delivered _ content _ => some content
    | .silentExit => none) = some (intArg r)
  unfold performCalculation
  rw [computeResult_of_valid num1 op num2 r hop hdiv hr]
  show some (intToStr r) = some (intArg r)
  rw [intToStr_eq_natRepr hnn]
  unfold intArg
  rw [if_neg (by omega)]

theorem roundTrip_delivers_correct_result_witness :
    roundTripContent 5 9 4 2 = some (intArg 4) :=
  roundTrip_delivers_correct_result 5 9 4 2 4 (by decide) (by decide) (by decide)
    (by decide) (by decide)

/-- C2: a division-by-zero request and a request with an operation code
outside {1,2,3,4} both make the calculation worker terminate without
creating the requester's outbox file and without sending any
notification, whatever the file-system environment does. -/
theorem worker_silent_on_invalid (env : WorkerEnv) (clientPID num1 operation num2 : Int)
    (h : (operation = 4 ∧ num2 = 0) ∨
      (operation ≠ 1 ∧ operation ≠ 2 ∧ operation ≠ 3 ∧ operation ≠ 4)) :
    performCalculation env clientPID num1 operation num2 = .silentExit := by
  unfold performCalculation computeResult
  rcases h with ⟨rfl, rfl⟩ | ⟨h1, h2, h3, h4⟩
  · norm_num
  · rw [if_neg h1, if_neg h2, if_neg h3, if_neg h4]

theorem worker_silent_on_invalid_witness :
    performCalculation ⟨false, false⟩ 3 1 4 0 = .silentExit ∧
      performCalculation ⟨false, false⟩ 3 1 7 5 = .silentExit :=
  ⟨worker_silent_on_invalid ⟨false, false⟩ 3 1 4 0 (by decide),
    worker_silent_on_invalid ⟨false, false⟩ 3 1 7 5 (by decide)⟩

/-- C3: the inbox content "5 3" has fewer than four space-delimited
tokens, and on it `parseInput` does not complete a parse: the fourth
`strtok` call returns NULL and `atoi(NULL)` dereferences a null pointer
inside the long-lived server process (modelled as `none`), contradicting
the requirement that malformed content be fatal to the current unit of
work only. -/
theorem parseInput_malformed_crashes : parseInput [53, 32, 51] = none := by decide

/-- C4: the integer-to-string serializer returns the empty string on every
negative input, so a negative computed result (for example Sub with
operand2 > operand1) is written to the requester's outbox as empty
content rather than as its decimal representation. -/
theorem intToStr_negative_gives_empty :
    (∀ n : Int, n < 0 → intToStr n = []) ∧
      ∀ clientPID num1 num2 : Int, num1 - num2 < 0 →
        performCalculation ⟨false, false⟩ clientPID num1 2 num2
          = .delivered (outboxName clientPID) [] clientPID := by
  constructor
  · exact fun n hn => intToStr_of_neg hn
  · intro pid a b hab
    unfold performCalculation computeResult
    norm_num
    rw [intToStr_of_neg hab]

theorem intToStr_negative_gives_empty_witness :
    intToStr (-1) = [] ∧
      performCalculation ⟨false, false⟩ 5 0 2 1 = .delivered (outboxName 5) [] 5 :=
  ⟨intToStr_negative_gives_empty.1 (-1) (by decide),
    intToStr_negative_gives_empty.2 5 0 1 (by decide)⟩

/-- C5: the idle timeout terminates the server (exit 0) exactly when the
request-seen flag is unset, it never terminates the server once the flag
is set, and every dispatch cycle that returns control to the event loop
leaves the flag set. -/
theorem idle_timeout_iff_no_request :
    (∀ flag : Bool, timerHandler flag = some 0 ↔ flag = false) ∧
      (∀ flag : Bool, timerHandler flag = none ↔ flag = true) ∧
      ∀ env : DispatchEnv, ∀ flag : Bool,
        (signalHandlerRun env flag).exitCode = none →
          (signalHandlerRun env flag).flagAfter = true := by
  refine ⟨?_, ?_, ?_⟩
  · intro flag
    cases flag <;> simp [timerHandler]
  · intro flag
    cases flag <;> simp [timerHandler]
  · intro env flag
    obtain ⟨o, f, m, r, d, k⟩ := env
    cases o <;> cases f <;> cases m <;> cases r <;> cases d <;> cases k <;>
      cases flag <;> decide

theorem idle_timeout_iff_no_request_witness :
    timerHandler false = some 0 ∧
      (signalHandlerRun ⟨false, false, false, false, false, false⟩ false).flagAfter = true :=
  ⟨(idle_timeout_iff_no_request.1 false).mpr rfl,
    idle_timeout_iff_no_request.2.2 ⟨false, false, false, false, false, false⟩ false rfl⟩

/-- C7: in every dispatch cycle that reaches the fork of the calculation
worker, the inbox is read, the descriptor closed and the inbox file
deleted strictly before the fork, so the shared slot is free while the
request is being computed. -/
theorem inbox_deleted_before_fork (env : DispatchEnv) (flag : Bool)
    (h : SEv.evFork ∈ (signalHandlerRun env flag).trace) :
    (signalHandlerRun env flag).trace.indexOf SEv.evRead
        < (signalHandlerRun env flag).trace.indexOf SEv.evRemoveInbox ∧
      (signalHandlerRun env flag).trace.indexOf SEv.evCloseFd
        < (signalHandlerRun env flag).trace.indexOf SEv.evRemoveInbox ∧
      (signalHandlerRun env flag).trace.indexOf SEv.evRemoveInbox
        < (signalHandlerRun env flag).trace.indexOf SEv.evFork := by
  obtain ⟨o, f, m, r, d, k⟩ := env
  revert h
  cases o <;> cases f <;> cases m <;> cases r <;> cases d <;> cases k <;>
    cases flag <;> decide

theorem inbox_deleted_before_fork_witness :
    (signalHandlerRun ⟨false, false, false, false, false, false⟩ false).trace.indexOf
        SEv.evRead
        < (signalHandlerRun ⟨false, false, false, false, false, false⟩ false).trace.indexOf
          SEv.evRemoveInbox ∧
      (signalHandlerRun ⟨false, false, false, false, false, false⟩ false).trace.indexOf
          SEv.evCloseFd
        < (signalHandlerRun ⟨false, false, false, false, false, false⟩ false).trace.indexOf
          SEv.evRemoveInbox ∧
      (signalHandlerRun ⟨false, false, false, false, false, false⟩ false).trace.indexOf
          SEv.evRemoveInbox
        < (signalHandlerRun ⟨false, false, false, false, false, false⟩ false).trace.indexOf
          SEv.evFork :=
  inbox_deleted_before_fork ⟨false, false, false, false, false, false⟩ false (by decide)

/-- C8 (counterexample): on the path where `fork` fails the server process
exits with code 1, not 0. -/
theorem server_exit_nonzero_on_fork_failure :
    (signalHandlerRun ⟨false, false, false, false, false, true⟩ false).exitCode = some 1 ∧
      (1 : Nat) ≠ 0 := by decide

/-- C8 (amended): the server process exits with code 0 on all terminating
paths — failed inbox open, failed fstat, failed allocation, failed read,
failed deletion, idle-timeout termination — except the failed-fork path,
which exits with code 1. -/
theorem server_exit_codes (env : DispatchEnv) (flag : Bool) :
    ((signalHandlerRun env flag).exitCode = none ∨
      (signalHandlerRun env flag).exitCode = some 0 ∨
      ((signalHandlerRun env flag).exitCode = some 1 ∧ env.forkFails = true)) ∧
      ∀ g : Bool, timerHandler g = none ∨ timerHandler g = some 0 := by
  constructor
  · obtain ⟨o, f, m, r, d, k⟩ := env
    cases o <;> cases f <;> cases m <;> cases r <;> cases d <;> cases k <;>
      cases flag <;> decide
  · intro g
    cases g <;> decide

/-- C9 (counterexample): a request record with the negative requester
identity -1 does not survive the round trip: `intToStr` serializes -1 as
the empty string, the line then has only three tokens, and the parse
crashes instead of recovering the record. -/
theorem serialize_parse_negative_identity_counterexample :
    parseInput (requestLineOfInts (-1) 2 1 3) ≠ some (-1, 2, 1, 3) ∧
      parseInput (requestLineOfInts (-1) 2 1 3) = none := by decide

/-- C9 (amended): for every request record with nonnegative requester
identity and arbitrary integer operands and operation code, parsing the
client's serialized single-line, space-delimited request recovers exactly
the four integer fields. -/
theorem serialize_parse_roundTrip (myPID num1 operation num2 : Int) (hpid : 0 ≤ myPID) :
    parseInput (requestLineOfInts myPID num1 operation num2)
      = some (myPID, num1, operation, num2) :=
  parse_requestLine myPID num1 operation num2 hpid

theorem serialize_parse_roundTrip_witness :
    parseInput (requestLineOfInts 3 (-7) 2 5) = some (3, -7, 2, 5) :=
  serialize_parse_roundTrip 3 (-7) 2 5 (by decide)

/-- C6: the client's inbox-acquisition loop makes at most 10 attempts;
every attempt is preceded by one sleep of (backoff + 1) time units, the
same single drawn backoff value each time; the loop stops with the first
attempt whose exclusive creation and write both succeed; and when none of
the 10 attempts succeeds the loop ends unsuccessfully and the client
reports failure instead of proceeding. -/
theorem client_retry_loop_behaviour (env : Nat → AttemptOutcome) (backoff : Nat) :
    (retryLoop env backoff 0).sleeps.length ≤ 10 ∧
      (∀ t ∈ (retryLoop env backoff 0).sleeps, t = backoff + 1) ∧
      (∀ k, k < 10 → (∀ j, j < k → env j ≠ .success) → env k = .success →
        (retryLoop env backoff 0).sleeps.length = k + 1 ∧
          (retryLoop env backoff 0).succeeded = true ∧
          clientReportsFailure env backoff = false) ∧
      ((∀ k, k < 10 → env k ≠ .success) →
        (retryLoop env backoff 0).succeeded = false ∧
          clientReportsFailure env backoff = true) := by
  refine ⟨?_, ?_, ?_, ?_⟩
  · exact retryLoop_sleeps_len env backoff 10 0 rfl
  · exact retryLoop_sleeps_const env backoff 10 0 rfl
  · intro k hk hbefore hs
    have h := retryLoop_first_success env backoff k 0 (by omega)
      (fun j hj => by simpa using hbefore j hj) (by simpa using hs)
    refine ⟨h.1, h.2.1, ?_⟩
    unfold clientReportsFailure
    rw [h.2.2]
    simp
    omega
  · intro hfail
    have h := retryLoop_all_fail env backoff 10 0 rfl (by omega)
      (fun j hj1 hj2 => hfail j hj2)
    refine ⟨h.2, ?_⟩
    unfold clientReportsFailure
    rw [h.1]
    rfl

theorem client_retry_loop_behaviour_witness :
    ((retryLoop (fun k => if k = 2 then .success else .openFail) 3 0).sleeps.length
        = 3 ∧
      (retryLoop (fun k => if k = 2 then .success else .openFail) 3 0).succeeded
        = true ∧
      clientReportsFailure (fun k => if k = 2 then .success else .openFail) 3
        = false) ∧
      (retryLoop (fun _ => .openFail) 3 0).succeeded = false ∧
        clientReportsFailure (fun _ => .openFail) 3 = true :=
  ⟨(client_retry_loop_behaviour (fun k => if k = 2 then .success else .openFail) 3).2.2.1
      2 (by decide) (by decide) (by decide),
    (client_retry_loop_behaviour (fun _ => .openFail) 3).2.2.2 (by decide)⟩

/-- C10: when SIGUSR1 arrives while the shared inbox file does not exist,
the open fails and the whole server process exits (with code 0) after the
single open attempt, instead of returning to its idle wait. -/
theorem missing_inbox_exits_server (env : DispatchEnv) (flag : Bool)
    (h : env.openFails = true) :
    (signalHandlerRun env flag).exitCode = some 0 ∧
      (signalHandlerRun env flag).trace = [SEv.evOpen] := by
  simp [signalHandlerRun, h]

theorem missing_inbox_exits_server_witness :
    (signalHandlerRun ⟨true, false, false, false, false, false⟩ false).exitCode = some 0 ∧
      (signalHandlerRun ⟨true, false, false, false, false, false⟩ false).trace
        = [SEv.evOpen] :=
  missing_inbox_exits_server ⟨true, false, false, false, false, false⟩ false rfl

end IPC
